import Mathlib

/-!
A shallow embedding of the two docx tools of this repository
(`tools/update_contract_template.py` and `tools/dump_contract.py`).

A document is modelled as the ordered list of its paragraphs' texts
(`List String`); the docx container library only ever hands the tools an
ordered sequence of paragraphs with mutable text, so this captures
everything the tools read or write.  The Python string primitives the
tools use (`in`, `str.replace`, `str.strip`, `str.startswith`,
`str.find`, slicing) are embedded as executable functions on `List Char`.
-/

/-- The characters Python's argument-less `str.strip()` removes
(characters for which `str.isspace()` holds). -/
def pyIsSpace (c : Char) : Bool :=
  [' ', '\t', '\n', '\x0b', '\x0c', '\r', '\x1c', '\x1d', '\x1e', '\x1f',
   '\x85', '\xa0', '\u1680', '\u2000', '\u2001', '\u2002', '\u2003',
   '\u2004', '\u2005', '\u2006', '\u2007', '\u2008', '\u2009', '\u200a',
   '\u2028', '\u2029', '\u202f', '\u205f', '\u3000'].contains c

/-- Python `s.strip()`: drop leading and trailing whitespace. -/
def pyStrip (s : String) : String :=
  ⟨((s.data.dropWhile pyIsSpace).reverse.dropWhile pyIsSpace).reverse⟩

/-- Python `needle in hay` on character lists: `occursIn n h` is true iff
`n` occurs contiguously inside `h` (the empty needle occurs in every
string, including the empty one). -/
def occursIn : List Char → List Char → Bool
  | n, [] => n.isEmpty
  | n, c :: t => n.isPrefixOf (c :: t) || occursIn n t

/-- Python `needle in text` on strings. -/
def strContains (text needle : String) : Bool :=
  occursIn needle.data text.data

/-- Python `s.startswith(pre)`. -/
def pyStartswith (s pre : String) : Bool :=
  pre.data.isPrefixOf s.data

/-- One left-to-right scan of Python `str.replace` for a non-empty
pattern `o :: old`: at each position, if the pattern starts here, emit
`new` and skip past the match (non-overlapping); otherwise keep the
character and move on.  The fuel argument only makes the recursion
structural (each step consumes at least one character and one unit of
fuel, so with fuel = input length the zero-fuel branch is unreachable). -/
def replaceAux (o : Char) (old new : List Char) : Nat → List Char → List Char
  | _, [] => []
  | 0, s => s
  | fuel + 1, c :: rest =>
    if (o :: old).isPrefixOf (c :: rest) then
      new ++ replaceAux o old new fuel (rest.drop old.length)
    else
      c :: replaceAux o old new fuel rest

/-- Python `"".join`-style interleaving used by `str.replace` with an
empty pattern: `s.replace("", new)` puts `new` before every character
and at the end. -/
def interleave (new : List Char) : List Char → List Char
  | [] => []
  | c :: rest => c :: (new ++ interleave new rest)

/-- Python `s.replace(old, new)` (no count argument): replaces every
non-overlapping occurrence of `old`, scanning left to right; for an
empty `old` it inserts `new` between, before and after all characters. -/
def pyReplace (s old new : String) : String :=
  match old.data with
  | [] => ⟨new.data ++ interleave new.data s.data⟩
  | o :: os => ⟨replaceAux o os new.data s.data.length s.data⟩

/-!  The two paragraph-rewriting operations of
`tools/update_contract_template.py`.  The Python `ValueError` raised by
`replace_paragraph_contains` carries the unmatched needle in its
message; it is modelled as `Except.error needle`. -/

/-- `replace_paragraph_contains(doc, needle, replacement)`: walk the
paragraphs in order; on the first whose text contains `needle`, set that
paragraph's whole text to `replacement` and return; raise (carrying the
needle) if no paragraph matches. -/
def replace_paragraph_contains (doc : List String) (needle replacement : String) :
    Except String (List String) :=
  match doc with
  | [] => .error needle
  | p :: rest =>
    if strContains p needle then
      .ok (replacement :: rest)
    else
      match replace_paragraph_contains rest needle replacement with
      | .ok rest' => .ok (p :: rest')
      | .error e => .error e

/-- `replace_text_in_paragraph(doc, needle, replacement)`: walk all
paragraphs; in each whose text contains `needle`, replace every
occurrence of `needle` by `replacement`; never raises. -/
def replace_text_in_paragraph : List String → String → String → List String
  | [], _, _ => []
  | p :: rest, needle, replacement =>
    (if strContains p needle then pyReplace p needle replacement else p) ::
      replace_text_in_paragraph rest needle replacement

/-!  The structural normalization scan at the end of `main`. -/

/-- `stripped[stripped.find(")"):]`.  In `main` this is only evaluated
under the guard `")" in stripped`, so the first `)` exists and
`find` agrees with `findIdx`. -/
def stateSuffix (stripped : String) : String :=
  ⟨stripped.data.drop (stripped.data.findIdx (fun c => c == ')'))⟩

/-- The body of the normalization loop for one paragraph, given the
already-normalized-and-stripped text.  Both tests read `stripped`
(computed once from the original text); the COUNTY write happens after,
and therefore overrides, the STATE OF write. -/
def normScanStep (stripped p : String) : String :=
  let t1 :=
    if pyStartswith stripped "STATE OF" && strContains stripped ")" then
      "STATE OF \x7bstate\x7d " ++ stateSuffix stripped
    else p
  if pyStartswith stripped "COUNTY" && strContains stripped ")SS" then
    "COUNTY OF \x7bcounty\x7d )SS.:"
  else t1

/-- One paragraph of the normalization scan: map non-breaking spaces to
spaces, strip, then apply the two structural rewrites. -/
def normScanPara (p : String) : String :=
  normScanStep (pyStrip (pyReplace p "\xa0" " ")) p

/-- The normalization scan runs over every paragraph. -/
def normScan (doc : List String) : List String :=
  doc.map normScanPara

/-!  The fixed rule catalogue of `main`, in source order.  A `wholePara`
rule is a `replace_paragraph_contains` call (required match, may fail);
a `substr` rule is a `replace_text_in_paragraph` call (best effort). -/

/-- One rewrite rule of the catalogue in `main`. -/
inductive Rule where
  | wholePara (needle replacement : String)
  | substr (needle replacement : String)
deriving DecidableEq

/-- Apply one rule, as `main` does. -/
def applyRule (doc : List String) : Rule → Except String (List String)
  | .wholePara n r => replace_paragraph_contains doc n r
  | .substr n r => .ok (replace_text_in_paragraph doc n r)

/-- Apply a list of rules in order, stopping at the first failure. -/
def applyRules : List String → List Rule → Except String (List String)
  | doc, [] => .ok doc
  | doc, r :: rs =>
    match applyRule doc r with
    | .ok d => applyRules d rs
    | .error e => .error e

/-- Needle of rule W1 of the catalogue in `main`. -/
def needleW1 : String := "This Agreement dated"

/-- Replacement of rule W1 of the catalogue in `main`. -/
def replW1 : String := "This Agreement dated \x7bagreementDate\x7d is between (Buyer: \x7bbuyerName\x7d, \x7bbuyerFullAddress\x7d, \x7bbuyerPhone\x7d, \x7bbuyerEmail\x7d) herein referred to as Buyer and \x7bbreederName\x7d of \x7bkennelName\x7d herein referred to as Breeder."

/-- Needle of rule W2 of the catalogue in `main`. -/
def needleW2 : String := "In Consideration of the total sum"

/-- Replacement of rule W2 of the catalogue in `main`. -/
def replW2 : String := "In Consideration of the total sum of \x7bsalePrice\x7d (\x7bsalePriceWords\x7d) and the mutual promises contained herein, Breeder has agreed to sell, and Buyer has agreed to purchase \x7bpuppyCount\x7d (\x7bmaleCount\x7d male, \x7bfemaleCount\x7d female) American Bully puppy."

/-- Needle of rule W3 of the catalogue in `main`. -/
def needleW3 : String := "Born on"

/-- Replacement of rule W3 of the catalogue in `main`. -/
def replW3 : String := "Born on \x7bpuppyDOBLong\x7d"

/-- Needle of rule W4 of the catalogue in `main`. -/
def needleW4 : String := "Sire:"

/-- Replacement of rule W4 of the catalogue in `main`. -/
def replW4 : String := "Sire: \x7bsireName\x7d"

/-- Needle of rule W5 of the catalogue in `main`. -/
def needleW5 : String := "Dam:"

/-- Replacement of rule W5 of the catalogue in `main`. -/
def replW5 : String := "Dam: \x7bdamName\x7d"

/-- Needle of rule W6 of the catalogue in `main`. -/
def needleW6 : String := "The puppy is sold as a pet"

/-- Replacement of rule W6 of the catalogue in `main`. -/
def replW6 : String := "\x7b#isPet\x7dThe puppy is sold as a pet, with no registration, and must be spayed/neutered at no earlier than 18 months of age no later than two years of age (as early spay/neuter can be detrimental to the dogs overall health and wellness).\x7b/isPet\x7d"

/-- Needle of rule W7 of the catalogue in `main`. -/
def needleW7 : String := "The puppy is sold with breeding rights"

/-- Replacement of rule W7 of the catalogue in `main`. -/
def replW7 : String := "\x7b#isFullRights\x7dThe puppy is sold with breeding rights, or “Full Rights\" registration. Buyer will make a good faith effort to show the dog or allow the dog to be shown by the Breeder, to its ABKC and UKC Championship.\x7b/isFullRights\x7d"

/-- Needle of rule W8 of the catalogue in `main`. -/
def needleW8 : String := "If No Registration"

/-- Replacement of rule W8 of the catalogue in `main`. -/
def replW8 : String := "\x7b#isPet\x7dIf \"No Registration\" has been selected, this puppy is being sold as pet quality only, intended for companionship with no guarantees as to breeding soundness, show-ability, work ability, trainability, temperament or size at maturity. The Buyer agrees to NO BREEDING of this dog (accidental or intentional).  Buyer is to have the dog altered (Spay/Neuter/Vasectomy/Hysterectomy) by the age of 2 years old (24 months) but no earlier than 18 months of age.\x7b/isPet\x7d"

/-- Needle of rule W9 of the catalogue in `main`. -/
def needleW9 : String := "The Buyer affirms that their purchase"

/-- Replacement of rule W9 of the catalogue in `main`. -/
def replW9 : String := "\x7b#isPet\x7dThe Buyer affirms that their purchase is for a \"pet home\" only and not for breeding purposes. If the dog produces a litter without the knowledge and written consent of the Breeder, the Breeder will be entitled to compensation in the amount of $5,000 (Five Thousand Dollars and no Cents) for breach of contract terms. The Buyer herein agrees to pay the Breeder an additional $2,000 (Two Thousand Dollars and no cents) per puppy produced (dead or alive) from the whelping no later than 30 days after the birth of the unwarranted breeding.\x7b/isPet\x7d"

/-- Needle of rule W10 of the catalogue in `main`. -/
def needleW10 : String := "The General Health Guarantee"

/-- Replacement of rule W10 of the catalogue in `main`. -/
def replW10 : String := "\x7b#isPet\x7dThe General Health Guarantee also becomes null and void if spay/neuter contract is violated.\x7b/isPet\x7d"

/-- Needle of rule S1 of the catalogue in `main`. -/
def needleS1 : String := "State of ________, County of ________"

/-- Replacement of rule S1 of the catalogue in `main`. -/
def replS1 : String := "State of \x7bstate\x7d, County of \x7bcounty\x7d"

/-- Needle of rule S2 of the catalogue in `main`. -/
def needleS2 : String := "State of ___________ County of ____________"

/-- Replacement of rule S2 of the catalogue in `main`. -/
def replS2 : String := "State of \x7bstate\x7d County of \x7bcounty\x7d"

/-- Needle of rule S3 of the catalogue in `main`. -/
def needleS3 : String := "State of (______), County of (_____)"

/-- Replacement of rule S3 of the catalogue in `main`. -/
def replS3 : String := "State of (\x7bstate\x7d), County of (\x7bcounty\x7d)"

/-- Needle of rule W11 of the catalogue in `main`. -/
def needleW11 : String := "Signed on"

/-- Replacement of rule W11 of the catalogue in `main`. -/
def replW11 : String := "Signed on \x7bsigningDate\x7d"

/-- Needle of rule W12 of the catalogue in `main`. -/
def needleW12 : String := "On this _____ day of _________"

/-- Replacement of rule W12 of the catalogue in `main`. -/
def replW12 : String := "On this \x7bsigningDate\x7d, before me, the undersigned, a Notary Public in and for said State, personally appeared _____________________, personally known to me or proved to me on the basis of satisfactory evidence to be the individual whose name is subscribed to the within Instrument and acknowledged to me that s/he/they executed the same in her/his/their capacity, and that by her/his/their signature on the instrument, the individuals, or the person upon behalf of which the individuals acted, executed the instrument."

/-- Needle of rule W13 of the catalogue in `main`. -/
def needleW13 : String := "This Agreement is made and entered into this ______ day of"

/-- Replacement of rule W13 of the catalogue in `main`. -/
def replW13 : String := "This Agreement is made and entered into this \x7bagreementDate\x7d"

/-- Needle of rule W14 of the catalogue in `main`. -/
def needleW14 : String := "By and between"

/-- Replacement of rule W14 of the catalogue in `main`. -/
def replW14 : String := "By and between \x7bbreederName\x7d (Breeder) and \x7bbuyerName\x7d (Buyer),"

/-- Needle of rule W15 of the catalogue in `main`. -/
def needleW15 : String := "For the purpose of setting forth the terms"

/-- Replacement of rule W15 of the catalogue in `main`. -/
def replW15 : String := "For the purpose of setting forth the terms and conditions of purchase by the Buyer of a Purebred American Bully from the litter born on \x7bpuppyDOBLong\x7d. Out of \x7bsireName\x7d (Sire), and \x7bdamName\x7d (Dam). For \x7bsalePrice\x7d the Breeder agrees to sell and buyer agrees to purchase a \x7bfemaleCount\x7d female, \x7bmaleCount\x7d male companion puppy from the litter described above subject to the following terms."

/-- The ordered catalogue of the eighteen rewrite-rule calls in
`main`, in source order. -/
def ruleCatalogue : List Rule :=
  [.wholePara needleW1 replW1,
   .wholePara needleW2 replW2,
   .wholePara needleW3 replW3,
   .wholePara needleW4 replW4,
   .wholePara needleW5 replW5,
   .wholePara needleW6 replW6,
   .wholePara needleW7 replW7,
   .wholePara needleW8 replW8,
   .wholePara needleW9 replW9,
   .wholePara needleW10 replW10,
   .substr needleS1 replS1,
   .substr needleS2 replS2,
   .substr needleS3 replS3,
   .wholePara needleW11 replW11,
   .wholePara needleW12 replW12,
   .wholePara needleW13 replW13,
   .wholePara needleW14 replW14,
   .wholePara needleW15 replW15]

/-- The in-memory document transformation performed by `main`: the rule
catalogue in order, then the structural normalization scan.  `main`
saves the document exactly when this returns `ok`. -/
def mainTransform (doc : List String) : Except String (List String) :=
  match applyRules doc ruleCatalogue with
  | .ok d => .ok (normScan d)
  | .error e => .error e

/-- The documents `main` persists to the target path: exactly one save
on success, nothing on failure. -/
def savedOutputs (doc : List String) : List (List String) :=
  match mainTransform doc with
  | .ok d => [d]
  | .error _ => []

/-!  The dump loop of `tools/dump_contract.py`: one line per non-blank
paragraph, written as `f"{i}: {text}\n"` with the paragraph's true
document position `i`. -/

/-- The dump loop starting at position `i`. -/
def dumpLoop (i : Nat) : List String → List String
  | [] => []
  | p :: rest =>
    let text := pyStrip p
    if text.isEmpty then dumpLoop (i + 1) rest
    else (Nat.repr i ++ ": " ++ text ++ "\n") :: dumpLoop (i + 1) rest

/-- The lines of the report `dump_contract.py` writes, in order. -/
def dumpReport (doc : List String) : List String :=
  dumpLoop 0 doc

/-!  Concrete documents used to settle the engine-level claims.  `docU`
is a representative source document: one paragraph per whole-paragraph
needle, in catalogue order, so every required rule matches exactly one
paragraph.  `dupDoc` additionally duplicates the paragraphs for the
three needles whose replacements do not contain them. -/

/-- One paragraph per whole-paragraph needle, in catalogue order. -/
def docU : List String :=
  [needleW1, needleW2, needleW3, needleW4, needleW5, needleW6, needleW7, needleW8,
   needleW9, needleW10, needleW11, needleW12, needleW13, needleW14, needleW15]

/-- What the engine turns `docU` into: every paragraph replaced by its
rule's replacement (the normalization scan touches none of them). -/
def docTemplated : List String :=
  [replW1, replW2, replW3, replW4, replW5, replW6, replW7, replW8,
   replW9, replW10, replW11, replW12, replW13, replW14, replW15]

/-- `docU` with extra copies of the paragraphs for needles W8, W12 and
W13 — the three whole-paragraph needles that do not reoccur in their own
replacements. -/
def dupDoc : List String :=
  docU ++ [needleW8, needleW12, needleW13]

/-- What the engine turns `dupDoc` into: the first copy of each
duplicated paragraph is replaced, the trailing copies survive. -/
def dupTemplated1 : List String :=
  docTemplated ++ [needleW8, needleW12, needleW13]

/-- What a second engine run turns `dupTemplated1` into: the surviving
copies now satisfy rules W8, W12 and W13, so the rerun succeeds. -/
def dupTemplated2 : List String :=
  docTemplated ++ [replW8, replW12, replW13]

/-!  Generic helpers. -/

/-- Decidable equality for `Except`, componentwise. -/
def exceptDecEq {ε α : Type*} [DecidableEq ε] [DecidableEq α] :
    (x y : Except ε α) → Decidable (x = y)
  | .error a, .error b =>
    if h : a = b then .isTrue (by rw [h])
    else .isFalse (fun hc => by cases hc; exact h rfl)
  | .error _, .ok _ => .isFalse (fun hc => by cases hc)
  | .ok _, .error _ => .isFalse (fun hc => by cases hc)
  | .ok a, .ok b =>
    if h : a = b then .isTrue (by rw [h])
    else .isFalse (fun hc => by cases hc; exact h rfl)

instance {ε α : Type*} [DecidableEq ε] [DecidableEq α] : DecidableEq (Except ε α) :=
  exceptDecEq

/-- The empty needle occurs in every string. -/
theorem occursIn_nil_left (l : List Char) : occursIn [] l = true := by
  cases l <;> simp [occursIn, List.isPrefixOf]

/-- C10: with the empty string as needle, `replace_paragraph_contains` on a
non-empty document never raises: it overwrites the first paragraph's whole
text with the replacement and leaves every other paragraph unchanged. -/
theorem empty_needle_replaces_first_paragraph (p : String) (rest : List String)
    (replacement : String) :
    replace_paragraph_contains (p :: rest) "" replacement = .ok (replacement :: rest) := by
  have h : strContains p "" = true := by
    unfold strContains
    have hd : ("" : String).data = [] := rfl
    rw [hd]
    exact occursIn_nil_left p.data
  simp [replace_paragraph_contains, h]

/-- C1: the whole-paragraph rule is a dichotomy: if some paragraph contains
the needle, the first such paragraph (everything before it fails the test)
has its entire text set to the replacement, all other paragraphs are kept
unchanged in order, and the call returns normally; if no paragraph contains
the needle, the call raises the value error carrying the needle and the
document is untouched. -/
theorem whole_paragraph_rule_dichotomy (doc : List String) (needle replacement : String) :
    (doc.any (fun p => strContains p needle) = true →
      ∃ pre q post, doc = pre ++ q :: post ∧
        (∀ x ∈ pre, strContains x needle = false) ∧
        strContains q needle = true ∧
        replace_paragraph_contains doc needle replacement =
          .ok (pre ++ replacement :: post)) ∧
    (doc.any (fun p => strContains p needle) = false →
      replace_paragraph_contains doc needle replacement = .error needle) := by
  induction doc with
  | nil =>
    refine ⟨fun h => ?_, fun _ => rfl⟩
    simp at h
  | cons p rest ih =>
    cases hcp : strContains p needle with
    | true =>
      refine ⟨fun _ => ⟨[], p, rest, rfl, by simp, hcp, ?_⟩, fun h => ?_⟩
      · simp [replace_paragraph_contains, hcp]
      · simp [hcp] at h
    | false =>
      refine ⟨fun h => ?_, fun h => ?_⟩
      · have hrest : rest.any (fun x => strContains x needle) = true := by
          simpa [hcp] using h
        obtain ⟨pre, q, post, hdoc, hpre, hq, heq⟩ := ih.1 hrest
        refine ⟨p :: pre, q, post, by rw [hdoc]; rfl, ?_, hq, ?_⟩
        · intro x hx
          rcases List.mem_cons.mp hx with hx | hx
          · rw [hx]; exact hcp
          · exact hpre x hx
        · simp [replace_paragraph_contains, hcp, heq]
      · have hrest : rest.any (fun x => strContains x needle) = false := by
          simpa [hcp] using h
        simp [replace_paragraph_contains, hcp, ih.2 hrest]

/-- Witness for C1 at a concrete document. -/
theorem whole_paragraph_rule_dichotomy_witness :
    ∃ pre q post, ["zz", "ab"] = pre ++ q :: post ∧
      (∀ x ∈ pre, strContains x "b" = false) ∧
      strContains q "b" = true ∧
      replace_paragraph_contains ["zz", "ab"] "b" "X" = .ok (pre ++ "X" :: post) :=
  (whole_paragraph_rule_dichotomy ["zz", "ab"] "b" "X").1 (by decide)

/-- C2: the substring rule keeps the paragraph count, rewrites each
paragraph containing the needle by Python `str.replace` (all occurrences
replaced, surrounding text kept), leaves non-matching paragraphs untouched,
and when no paragraph contains the needle it is the identity and raises
nothing. -/
theorem substr_rule_pointwise (doc : List String) (needle replacement : String) :
    (replace_text_in_paragraph doc needle replacement).length = doc.length ∧
    (∀ i, i < doc.length →
      (replace_text_in_paragraph doc needle replacement).getD i "" =
        (if strContains (doc.getD i "") needle then
          pyReplace (doc.getD i "") needle replacement
         else doc.getD i "")) ∧
    ((∀ x ∈ doc, strContains x needle = false) →
      replace_text_in_paragraph doc needle replacement = doc) := by
  induction doc with
  | nil =>
    refine ⟨rfl, fun i hi => ?_, fun _ => rfl⟩
    simp at hi
  | cons p rest ih =>
    refine ⟨by simp [replace_text_in_paragraph, ih.1], fun i hi => ?_, fun hall => ?_⟩
    · cases i with
      | zero => simp [replace_text_in_paragraph]
      | succ j =>
        have hj : j < rest.length := by simpa using hi
        simpa [replace_text_in_paragraph] using ih.2.1 j hj
    · have hp := hall p (by simp)
      have htail := ih.2.2 (fun x hx => hall x (by simp [hx]))
      simp [replace_text_in_paragraph, hp, htail]

/-- Witness for C2 at a concrete document. -/
theorem substr_rule_pointwise_witness :
    (replace_text_in_paragraph ["xaya", "b"] "a" "Z").getD 0 "" =
      (if strContains (["xaya", "b"].getD 0 "") "a" then
        pyReplace (["xaya", "b"].getD 0 "") "a" "Z"
       else ["xaya", "b"].getD 0 "") :=
  (substr_rule_pointwise ["xaya", "b"] "a" "Z").2.1 0 (by decide)

/-!  Helper lemmas about the string primitives, used by the
normalization-scan theorems. -/

/-- A one-character needle occurs in a string iff the character is a
member of it. -/
theorem occursIn_singleton (c : Char) (l : List Char) :
    occursIn [c] l = true ↔ c ∈ l := by
  induction l with
  | nil => simp [occursIn, List.isEmpty]
  | cons a t ih =>
    have h1 : occursIn [c] (a :: t) = ((c == a) && List.isPrefixOf [] t || occursIn [c] t) := rfl
    have h2 : List.isPrefixOf ([] : List Char) t = true := by cases t <;> rfl
    rw [h1, h2, List.mem_cons]
    simp only [Bool.and_true, Bool.or_eq_true, beq_iff_eq, ih]

/-- A string starting with `"STATE OF"` does not start with `"COUNTY"`. -/
theorem stateOf_not_county (s : String) (h : pyStartswith s "STATE OF" = true) :
    pyStartswith s "COUNTY" = false := by
  unfold pyStartswith at h ⊢
  have h1 : ("STATE OF" : String).data = 'S' :: ['T', 'A', 'T', 'E', ' ', 'O', 'F'] := rfl
  have h2 : ("COUNTY" : String).data = 'C' :: ['O', 'U', 'N', 'T', 'Y'] := rfl
  rw [h1] at h
  rw [h2]
  cases hd : s.data with
  | nil => rw [hd] at h; simp [List.isPrefixOf] at h
  | cons a t =>
    rw [hd] at h
    have ha : a = 'S' := by
      simp only [List.isPrefixOf, Bool.and_eq_true, beq_iff_eq] at h
      exact h.1.symm
    subst ha
    have hcs : ('C' == 'S') = false := by decide
    simp [List.isPrefixOf, hcs]

/-- `findIdx (· == c)` finds the leftmost occurrence of a present
character: it is in range, points at `c`, and everything before it
differs from `c`. -/
theorem findIdx_first_eq (l : List Char) (c : Char) (h : c ∈ l) :
    l.findIdx (fun x => x == c) < l.length ∧
    l.getD (l.findIdx (fun x => x == c)) ' ' = c ∧
    (∀ j, j < l.findIdx (fun x => x == c) → l.getD j ' ' ≠ c) := by
  induction l with
  | nil => simp at h
  | cons a t ih =>
    by_cases hac : a = c
    · subst hac
      have hb : (a == a) = true := by simp
      refine ⟨?_, ?_, ?_⟩ <;> simp [List.findIdx_cons, hb]
    · have hct : c ∈ t := by
        rcases List.mem_cons.mp h with h' | h'
        · exact absurd h'.symm hac
        · exact h'
      have hax : (a == c) = false := by simp [hac]
      obtain ⟨ih1, ih2, ih3⟩ := ih hct
      refine ⟨?_, ?_, ?_⟩
      · simp only [List.findIdx_cons, hax, cond_false, List.length_cons]
        omega
      · simp only [List.findIdx_cons, hax, cond_false, List.getD_cons_succ]
        exact ih2
      · intro j hj
        simp only [List.findIdx_cons, hax, cond_false] at hj
        cases j with
        | zero => simpa using hac
        | succ k =>
          simp only [List.getD_cons_succ]
          exact ih3 k (by omega)

/-- If `c` does not occur in `a`, the leftmost `c` of `a ++ c :: b` sits
exactly at position `a.length`. -/
theorem findIdx_append_cons (a b : List Char) (c : Char) (h : c ∉ a) :
    (a ++ c :: b).findIdx (fun x => x == c) = a.length := by
  induction a with
  | nil => simp [List.findIdx_cons]
  | cons x xs ih =>
    have hx : (x == c) = false := by
      have : x ≠ c := fun hxc => h (by simp [hxc])
      simp [this]
    have hxs : c ∉ xs := fun hc => h (List.mem_cons_of_mem _ hc)
    simp [List.findIdx_cons, hx, ih hxs]

/-- C5 counterexample: a paragraph that contains `"COUNTY"` and `")SS"`
but does not start with `"COUNTY"` is left untouched by the
normalization scan; the claim's `contains` reading is false of the code. -/
theorem county_contains_not_rewritten :
    strContains (pyStrip (pyReplace "x COUNTY )SS" "\xa0" " ")) "COUNTY" = true ∧
    strContains (pyStrip (pyReplace "x COUNTY )SS" "\xa0" " ")) ")SS" = true ∧
    normScanPara "x COUNTY )SS" ≠ "COUNTY OF \x7bcounty\x7d )SS.:" := by
  decide

/-- C5 (amended): for every paragraph whose text, after mapping
non-breaking spaces to spaces and trimming, starts with `"COUNTY"` and
contains `")SS"`, the normalization scan rewrites the paragraph's text
to exactly `"COUNTY OF {county} )SS.:"`, whatever else it contained. -/
theorem county_scan_rewrite (p : String)
    (h1 : pyStartswith (pyStrip (pyReplace p "\xa0" " ")) "COUNTY" = true)
    (h2 : strContains (pyStrip (pyReplace p "\xa0" " ")) ")SS" = true) :
    normScanPara p = "COUNTY OF \x7bcounty\x7d )SS.:" := by
  unfold normScanPara normScanStep
  simp [h1, h2]

/-- Witness for the amended C5 at a concrete paragraph. -/
theorem county_scan_rewrite_witness :
    normScanPara " COUNTY of nowhere )SS junk" = "COUNTY OF \x7bcounty\x7d )SS.:" :=
  county_scan_rewrite " COUNTY of nowhere )SS junk" (by decide) (by decide)

/-- C6: for every paragraph whose normalized trimmed text starts with
`"STATE OF"` and contains a closing parenthesis, the scan rewrites the
paragraph to `"STATE OF {state} "` followed by the suffix of the
normalized trimmed text running from its first `)` to the end. -/
theorem state_scan_rewrites_from_paren (p : String)
    (h1 : pyStartswith (pyStrip (pyReplace p "\xa0" " ")) "STATE OF" = true)
    (h2 : strContains (pyStrip (pyReplace p "\xa0" " ")) ")" = true) :
    ∃ i, i < (pyStrip (pyReplace p "\xa0" " ")).data.length ∧
      (pyStrip (pyReplace p "\xa0" " ")).data.getD i ' ' = ')' ∧
      (∀ j, j < i → (pyStrip (pyReplace p "\xa0" " ")).data.getD j ' ' ≠ ')') ∧
      normScanPara p =
        "STATE OF \x7bstate\x7d " ++ ⟨(pyStrip (pyReplace p "\xa0" " ")).data.drop i⟩ := by
  have hmem : ')' ∈ (pyStrip (pyReplace p "\xa0" " ")).data := by
    have hd : (")" : String).data = [')'] := rfl
    rw [strContains, hd] at h2
    exact (occursIn_singleton ')' _).mp h2
  obtain ⟨hlt, hget, hfirst⟩ := findIdx_first_eq (pyStrip (pyReplace p "\xa0" " ")).data ')' hmem
  refine ⟨(pyStrip (pyReplace p "\xa0" " ")).data.findIdx (fun x => x == ')'),
    hlt, hget, hfirst, ?_⟩
  have hcounty : pyStartswith (pyStrip (pyReplace p "\xa0" " ")) "COUNTY" = false :=
    stateOf_not_county _ h1
  unfold normScanPara normScanStep
  simp [h1, h2, hcounty, stateSuffix]

/-- Witness for C6 at a concrete paragraph. -/
theorem state_scan_rewrites_from_paren_witness :
    ∃ i, i < (pyStrip (pyReplace "STATE OF NEWYORK )x" "\xa0" " ")).data.length ∧
      (pyStrip (pyReplace "STATE OF NEWYORK )x" "\xa0" " ")).data.getD i ' ' = ')' ∧
      (∀ j, j < i →
        (pyStrip (pyReplace "STATE OF NEWYORK )x" "\xa0" " ")).data.getD j ' ' ≠ ')') ∧
      normScanPara "STATE OF NEWYORK )x" =
        "STATE OF \x7bstate\x7d " ++
          ⟨(pyStrip (pyReplace "STATE OF NEWYORK )x" "\xa0" " ")).data.drop i⟩ :=
  state_scan_rewrites_from_paren "STATE OF NEWYORK )x" (by decide) (by decide)

/-- C9: the preserved suffix starts at the leftmost `)`: if the
normalized trimmed text splits as `a ++ ')' :: b` with no `)` in `a` and
another `)` in `b`, the scan keeps `')' :: b` verbatim and discards the
text between the label and that first `)`. -/
theorem state_scan_uses_first_paren (p : String) (a b : List Char)
    (hsplit : (pyStrip (pyReplace p "\xa0" " ")).data = a ++ ')' :: b)
    (hnot : ')' ∉ a) (hb : ')' ∈ b)
    (h1 : pyStartswith (pyStrip (pyReplace p "\xa0" " ")) "STATE OF" = true) :
    normScanPara p = "STATE OF \x7bstate\x7d " ++ ⟨')' :: b⟩ := by
  have hmem : ')' ∈ (pyStrip (pyReplace p "\xa0" " ")).data := by
    rw [hsplit]; simp
  have h2 : strContains (pyStrip (pyReplace p "\xa0" " ")) ")" = true := by
    have hd : (")" : String).data = [')'] := rfl
    rw [strContains, hd]
    exact (occursIn_singleton ')' _).mpr hmem
  have hcounty : pyStartswith (pyStrip (pyReplace p "\xa0" " ")) "COUNTY" = false :=
    stateOf_not_county _ h1
  have hidx : List.findIdx (fun c => c == ')') (a ++ ')' :: b) = a.length :=
    findIdx_append_cons a b ')' hnot
  unfold normScanPara normScanStep
  simp only [h1, h2, hcounty, Bool.and_self, Bool.false_and, Bool.true_and,
    stateSuffix, hsplit, hidx, List.drop_left]
  simp

/-- Witness for C9 at a concrete paragraph with two closing parentheses. -/
theorem state_scan_uses_first_paren_witness :
    normScanPara "STATE OF N ) x ) y" =
      "STATE OF \x7bstate\x7d " ++ ⟨')' :: (" x ) y" : String).data⟩ :=
  state_scan_uses_first_paren "STATE OF N ) x ) y" ("STATE OF N " : String).data
    (" x ) y" : String).data (by decide) (by decide) (by decide) (by decide)

/-!  Length preservation (C3) and the error taxonomy of a full run (C4). -/

/-- A successful whole-paragraph replacement keeps the paragraph count. -/
theorem rpc_ok_length (doc : List String) (n r : String) (d : List String)
    (h : replace_paragraph_contains doc n r = .ok d) : d.length = doc.length := by
  induction doc generalizing d with
  | nil => simp [replace_paragraph_contains] at h
  | cons p rest ih =>
    cases hcp : strContains p n with
    | true =>
      simp only [replace_paragraph_contains, hcp, if_true, Except.ok.injEq] at h
      rw [← h]
      simp
    | false =>
      cases hr : replace_paragraph_contains rest n r with
      | ok rest' =>
        simp only [replace_paragraph_contains, hcp, Bool.false_eq_true, if_false, hr,
          Except.ok.injEq] at h
        rw [← h]
        simp [ih rest' hr]
      | error e =>
        simp [replace_paragraph_contains, hcp, hr] at h

/-- The substring rule keeps the paragraph count. -/
theorem rtp_length (doc : List String) (n r : String) :
    (replace_text_in_paragraph doc n r).length = doc.length := by
  induction doc with
  | nil => rfl
  | cons p rest ih => simp [replace_text_in_paragraph, ih]

/-- A successful run of any rule list keeps the paragraph count. -/
theorem applyRules_ok_length (rs : List Rule) (doc d : List String)
    (h : applyRules doc rs = .ok d) : d.length = doc.length := by
  induction rs generalizing doc with
  | nil =>
    simp only [applyRules, Except.ok.injEq] at h
    rw [h]
  | cons r rs ih =>
    cases r with
    | wholePara n rep =>
      cases hr : replace_paragraph_contains doc n rep with
      | ok d1 =>
        have h2 : applyRules d1 rs = .ok d := by
          simpa [applyRules, applyRule, hr] using h
        rw [ih d1 h2, rpc_ok_length doc n rep d1 hr]
      | error e =>
        simp [applyRules, applyRule, hr] at h
    | substr n rep =>
      have h2 : applyRules (replace_text_in_paragraph doc n rep) rs = .ok d := by
        simpa [applyRules, applyRule] using h
      rw [ih _ h2, rtp_length]

/-- C3: a successful run of the full engine (all whole-paragraph rules,
all substring rules and the normalization scan) preserves the number of
paragraphs; paragraphs are rewritten in place, never inserted, removed
or reordered. -/
theorem engine_preserves_paragraph_count (doc d : List String)
    (h : mainTransform doc = .ok d) : d.length = doc.length := by
  cases hr : applyRules doc ruleCatalogue with
  | ok d1 =>
    have hd : d = normScan d1 := by
      have := h
      simp only [mainTransform, hr, Except.ok.injEq] at this
      exact this.symm
    rw [hd, normScan, List.length_map, applyRules_ok_length ruleCatalogue doc d1 hr]
  | error e => simp [mainTransform, hr] at h

/-- A failed whole-paragraph replacement reports exactly its needle. -/
theorem rpc_error_eq (doc : List String) (n r e : String)
    (h : replace_paragraph_contains doc n r = .error e) : e = n := by
  induction doc with
  | nil =>
    simp only [replace_paragraph_contains, Except.error.injEq] at h
    rw [h]
  | cons p rest ih =>
    cases hcp : strContains p n with
    | true => simp [replace_paragraph_contains, hcp] at h
    | false =>
      cases hr : replace_paragraph_contains rest n r with
      | ok rest' => simp [replace_paragraph_contains, hcp, hr] at h
      | error e' =>
        have he : e' = e := by
          simpa [replace_paragraph_contains, hcp, hr] using h
        subst he
        exact ih hr

/-- An error of a rule run is always the needle of some whole-paragraph
rule of the list (substring rules never fail). -/
theorem applyRules_error_mem (rs : List Rule) (doc : List String) (e : String)
    (h : applyRules doc rs = .error e) : ∃ rep, Rule.wholePara e rep ∈ rs := by
  induction rs generalizing doc with
  | nil => simp [applyRules] at h
  | cons r rs ih =>
    cases r with
    | wholePara n rep =>
      cases hr : replace_paragraph_contains doc n rep with
      | ok d =>
        have h2 : applyRules d rs = .error e := by
          simpa [applyRules, applyRule, hr] using h
        obtain ⟨rep', hm⟩ := ih d h2
        exact ⟨rep', List.mem_cons_of_mem _ hm⟩
      | error e' =>
        have he : e' = e := by
          simpa [applyRules, applyRule, hr] using h
        have hn : e' = n := rpc_error_eq doc n rep e' hr
        refine ⟨rep, ?_⟩
        rw [← he, hn]
        exact List.mem_cons_self _ _
    | substr n rep =>
      have h2 : applyRules (replace_text_in_paragraph doc n rep) rs = .error e := by
        simpa [applyRules, applyRule] using h
      obtain ⟨rep', hm⟩ := ih _ h2
      exact ⟨rep', List.mem_cons_of_mem _ hm⟩

/-- C4: a full engine run either succeeds on all rules and persists
exactly one save, or it raises the required-match failure of some
whole-paragraph rule of the catalogue, identified by that rule's needle,
and persists nothing. -/
theorem engine_all_or_nothing (doc : List String) :
    (∃ d, mainTransform doc = .ok d ∧ savedOutputs doc = [d]) ∨
    (∃ e rep, mainTransform doc = .error e ∧ Rule.wholePara e rep ∈ ruleCatalogue ∧
      savedOutputs doc = []) := by
  cases h : applyRules doc ruleCatalogue with
  | ok d =>
    left
    exact ⟨normScan d, by simp [mainTransform, h], by simp [savedOutputs, mainTransform, h]⟩
  | error e =>
    right
    obtain ⟨rep, hm⟩ := applyRules_error_mem ruleCatalogue doc e h
    exact ⟨e, rep, by simp [mainTransform, h], hm, by simp [savedOutputs, mainTransform, h]⟩

/-!  The dumper (C7). -/

/-- The dump loop from any start index writes exactly the filtered,
formatted enumeration of the remaining paragraphs. -/
theorem dumpLoop_eq_enumFrom (i : Nat) (doc : List String) :
    dumpLoop i doc =
      ((doc.enumFrom i).filter (fun x => !(pyStrip x.2).isEmpty)).map
        (fun x => Nat.repr x.1 ++ ": " ++ pyStrip x.2 ++ "\n") := by
  induction doc generalizing i with
  | nil => rfl
  | cons p rest ih =>
    cases he : (pyStrip p).isEmpty with
    | true => simp [dumpLoop, he, List.enumFrom_cons, List.filter_cons, ih]
    | false => simp [dumpLoop, he, List.enumFrom_cons, List.filter_cons, ih]

/-- C7: the dump report has one newline-terminated line per paragraph
with non-empty trimmed text, formatted `"{index}: {trimmed_text}"` with
the paragraph's true 0-based document position; blank paragraphs
produce no line; line order follows paragraph order; the document is
not touched. -/
theorem dump_report_characterization (doc : List String) :
    dumpReport doc =
      ((doc.enum.filter (fun x => !(pyStrip x.2).isEmpty)).map
        (fun x => Nat.repr x.1 ++ ": " ++ pyStrip x.2 ++ "\n")) := by
  rw [dumpReport, dumpLoop_eq_enumFrom, List.enum]

/-!  Concrete engine runs (witness for C3, and C8).  Evaluating the full
pipeline in the kernel needs a deeper recursion stack and more time. -/

set_option maxRecDepth 200000

set_option maxHeartbeats 2000000 in
/-- Witness for C3: on the representative document the engine succeeds
and the paragraph count is preserved. -/
theorem engine_preserves_paragraph_count_witness :
    docTemplated.length = docU.length :=
  engine_preserves_paragraph_count docU docTemplated (by decide)

set_option maxHeartbeats 4000000 in
/-- C8 (amended): on the representative document, where every
whole-paragraph needle occurs in exactly one paragraph, the full run
succeeds, and re-running the catalogue on the templated output raises
the required-match failure for the needle `"If No Registration"`, whose
replacement does not reproduce it. -/
theorem templated_rerun_required_match_failure :
    mainTransform docU = .ok docTemplated ∧
    mainTransform docTemplated = .error needleW8 :=
  ⟨by decide, by decide⟩

set_option maxHeartbeats 6000000 in
/-- C8 counterexample: the claim is not true of every document the
engine succeeds on.  Duplicating the paragraphs for needles W8, W12 and
W13 gives a document whose first run succeeds and whose templated
output survives a complete second run without any required-match
failure. -/
theorem templated_rerun_can_succeed :
    mainTransform dupDoc = .ok dupTemplated1 ∧
    mainTransform dupTemplated1 = .ok dupTemplated2 :=
  ⟨by decide, by decide⟩
